import Mathlib

/-!
Verification of the track statistics and point-ingestion pipeline of the
GPS track recorder (trackingService / track utilities).

The JavaScript source is shallowly embedded:
* JavaScript numbers-or-nullish values are modelled by `JVal`
  (null, undefined, NaN, +Infinity, -Infinity, or a rational number);
  arithmetic and comparisons follow JavaScript coercion rules
  (`null` coerces to 0, `undefined` to NaN, `NaN` comparisons are false).
* Timestamps are rationals (milliseconds since epoch); the source stores
  ISO strings and subtracts `new Date(..)` values, which yields exactly
  this millisecond arithmetic for valid dates.
* The trigonometric haversine (`calculateDistance`) is embedded over ℝ
  where its algebraic properties are proved; the stateful recording
  functions take the numeric distance function as an explicit parameter
  `dist`, so every theorem about them holds in particular for the
  haversine instantiation.
* `localStorage` reads/writes become explicit state passing: each
  operation receives the current active track (`Option Track`) and
  returns the updated one.
-/

namespace IOTTrack

/-- JavaScript runtime values that the tracking code stores in numeric
fields: `null`, `undefined`, `NaN`, the two infinities, or a number
(modelled as a rational). -/
inductive JVal where
  | null : JVal
  | undef : JVal
  | nan : JVal
  | posInf : JVal
  | negInf : JVal
  | num : ℚ → JVal
deriving DecidableEq, Repr

namespace JVal

/-- JavaScript `ToNumber` coercion on nullish values: `null` coerces to
`0`, `undefined` to `NaN`; other values are already numeric. -/
def cNum : JVal → JVal
  | .null => .num 0
  | .undef => .nan
  | v => v

/-- JavaScript addition on numeric-or-nullish values. -/
def jadd (a b : JVal) : JVal :=
  match cNum a, cNum b with
  | .nan, _ => .nan
  | _, .nan => .nan
  | .num x, .num y => .num (x + y)
  | .posInf, .negInf => .nan
  | .negInf, .posInf => .nan
  | .posInf, _ => .posInf
  | _, .posInf => .posInf
  | .negInf, _ => .negInf
  | _, .negInf => .negInf
  | _, _ => .nan

/-- JavaScript multiplication on numeric-or-nullish values. -/
def jmul (a b : JVal) : JVal :=
  match cNum a, cNum b with
  | .nan, _ => .nan
  | _, .nan => .nan
  | .num x, .num y => .num (x * y)
  | .num x, .posInf => if x = 0 then .nan else if 0 < x then .posInf else .negInf
  | .posInf, .num x => if x = 0 then .nan else if 0 < x then .posInf else .negInf
  | .num x, .negInf => if x = 0 then .nan else if 0 < x then .negInf else .posInf
  | .negInf, .num x => if x = 0 then .nan else if 0 < x then .negInf else .posInf
  | .posInf, .posInf => .posInf
  | .posInf, .negInf => .negInf
  | .negInf, .posInf => .negInf
  | .negInf, .negInf => .posInf
  | _, _ => .nan

/-- JavaScript division on numeric-or-nullish values (division by zero
produces an infinity, `0/0` produces `NaN`). -/
def jdiv (a b : JVal) : JVal :=
  match cNum a, cNum b with
  | .nan, _ => .nan
  | _, .nan => .nan
  | .num x, .num y =>
      if y = 0 then (if x = 0 then .nan else if 0 < x then .posInf else .negInf)
      else .num (x / y)
  | .posInf, .num y => if y < 0 then .negInf else .posInf
  | .negInf, .num y => if y < 0 then .posInf else .negInf
  | .num _, .posInf => .num 0
  | .num _, .negInf => .num 0
  | _, _ => .nan

/-- JavaScript `<` comparison (any comparison involving `NaN` is false). -/
def jlt (a b : JVal) : Bool :=
  match cNum a, cNum b with
  | .num x, .num y => decide (x < y)
  | .num _, .posInf => true
  | .negInf, .num _ => true
  | .negInf, .posInf => true
  | _, _ => false

/-- JavaScript `Math.max` on two values (`NaN` is absorbing). -/
def jmax (a b : JVal) : JVal :=
  match cNum a, cNum b with
  | .nan, _ => .nan
  | _, .nan => .nan
  | .num x, .num y => .num (max x y)
  | .posInf, _ => .posInf
  | _, .posInf => .posInf
  | .negInf, v => v
  | v, .negInf => v
  | _, _ => .nan

/-- JavaScript falsiness of a numeric-or-nullish value
(`null`, `undefined`, `NaN` and `0` are falsy). -/
def jsFalsy : JVal → Bool
  | .null => true
  | .undef => true
  | .nan => true
  | .num q => decide (q = 0)
  | _ => false

/-- The JavaScript global `isNaN` (coerces, then tests for `NaN`):
true exactly on `NaN` and `undefined`. -/
def jsIsNaN (v : JVal) : Bool :=
  match cNum v with
  | .nan => true
  | _ => false

/-- Numeric value a `JVal` contributes to finite arithmetic: `null`
coerces to `0`; `undefined`/`NaN` and the infinities yield no finite
number (trigonometric functions map infinities to `NaN`). -/
def toFiniteNum (v : JVal) : Option ℚ :=
  match cNum v with
  | .num q => some q
  | _ => none

/-- `JSON.parse(JSON.stringify(.))` round-trip of a numeric value:
`NaN` and the infinities serialize as `null`; other values survive. -/
def jsonRound : JVal → JVal
  | .nan => .null
  | .posInf => .null
  | .negInf => .null
  | v => v

end JVal

open JVal

/-! ## Geodesy primitive (source: `calculateDistance`, haversine formula,
`part_000` lines 12-26 / 480-493 / 971-984, Earth radius 6371000 m).
Embedded over ℝ because it is trigonometric. -/

/-- JavaScript `Math.atan2` for real arguments. -/
noncomputable def atan2 (y x : ℝ) : ℝ :=
  if 0 < x then Real.arctan (y / x)
  else if x < 0 then
    (if 0 ≤ y then Real.arctan (y / x) + Real.pi else Real.arctan (y / x) - Real.pi)
  else
    (if 0 < y then Real.pi / 2 else if y < 0 then -(Real.pi / 2) else 0)

/-- The intermediate haversine quantity `a` of `calculateDistance`. -/
noncomputable def haversineA (lat1 lon1 lat2 lon2 : ℝ) : ℝ :=
  Real.sin ((lat2 - lat1) * Real.pi / 180 / 2) * Real.sin ((lat2 - lat1) * Real.pi / 180 / 2) +
    Real.cos (lat1 * Real.pi / 180) * Real.cos (lat2 * Real.pi / 180) *
      Real.sin ((lon2 - lon1) * Real.pi / 180 / 2) *
      Real.sin ((lon2 - lon1) * Real.pi / 180 / 2)

/-- `calculateDistance(lat1, lon1, lat2, lon2)`: haversine great-circle
distance in meters with Earth radius `R = 6371e3`. -/
noncomputable def calculateDistance (lat1 lon1 lat2 lon2 : ℝ) : ℝ :=
  6371000 *
    (2 * atan2 (Real.sqrt (haversineA lat1 lon1 lat2 lon2))
      (Real.sqrt (1 - haversineA lat1 lon1 lat2 lon2)))

/-! ## Data model (source: track structure comment, `part_000` lines
646-668; point construction in `addPointToTrack`). -/

/-- A raw position fix as delivered to `addPointToTrack` (the fields the
function reads from its `position` argument). `timestamp = none` models
an absent/falsy `position.timestamp`, which the source replaces by the
current time. -/
structure Position where
  latitude : JVal
  longitude : JVal
  accuracy : JVal
  altitude : JVal
  timestamp : Option ℚ
  speed : JVal
deriving DecidableEq, Repr

/-- A stored track point. -/
structure TrackPoint where
  latitude : JVal
  longitude : JVal
  accuracy : JVal
  altitude : JVal
  timestamp : ℚ
  speed : JVal
  battery : JVal
deriving DecidableEq, Repr

/-- The `speedData` block that `stopTrack` attaches to a finalized track
(`averageSpeed`/`maxSpeed` are strings produced by `toFixed(1)`). -/
structure SpeedData where
  history : List JVal
  timeLabels : List String
  averageSpeed : String
  maxSpeed : String
deriving DecidableEq, Repr

/-- A recorded track. `distance` is a `JVal` because the running total
accumulates `calculateDistance` results, which are `NaN` for invalid
coordinates. -/
structure Track where
  id : String
  name : String
  startTime : ℚ
  endTime : Option ℚ
  points : List TrackPoint
  distance : JVal
  duration : ℚ
  active : Bool
  speedData : Option SpeedData
deriving DecidableEq, Repr

/-! ## Recording session (source: `startTrack` / `addPointToTrack` /
`stopTrack`, `part_000` lines 675-906 — the variant with the 1000 ms
admission interval; the copy in `part_001` lines 39-189 differs only in
the interval constant, 60000 ms, and in taking `position.speed` instead
of computing it). -/

/-- `startTrack(name)`: a fresh active track. The `id` (random in the
source) and the formatted date string of the default name are passed in;
`now` is the creation instant. The source first stops a still-active
track — store glue that explicit state passing renders unnecessary,
since the embedding starts sequences from this fresh track. -/
def startTrack (id name nowStr : String) (now : ℚ) : Track :=
  { id := id
    name := if name = "" then "Trajet du " ++ nowStr else name
    startTime := now
    endTime := none
    points := []
    distance := .num 0
    duration := 0
    active := true
    speedData := none }

/-- The call `calculateDistance(lat1, lon1, lat2, lon2)` made on stored
`JVal` coordinates: JavaScript coerces `null` to 0; `undefined`, `NaN`
and (through the trigonometric functions) the infinities make the result
`NaN`. The finite numeric case is delegated to the explicit parameter
`dist`, instantiable with the haversine. -/
def jcalculateDistance (dist : ℚ → ℚ → ℚ → ℚ → ℚ) (lat1 lon1 lat2 lon2 : JVal) : JVal :=
  match toFiniteNum lat1, toFiniteNum lon1, toFiniteNum lat2, toFiniteNum lon2 with
  | some a, some b, some c, some d => .num (dist a b c d)
  | _, _, _, _ => .nan

/-- Duration update after a push (`part_000` lines 781-796): when more
than one point is stored, `duration` becomes the timestamp difference of
last and first point in seconds. -/
def updateDuration (t : Track) : Track :=
  if 1 < t.points.length then
    match t.points.head?, t.points.getLast? with
    | some f, some l => { t with duration := (l.timestamp - f.timestamp) / 1000 }
    | _, _ => t
  else t

/-- `MINIMUM_DISTANCE = 10` meters (`part_000` line 644). -/
def MINIMUM_DISTANCE : ℚ := 10

/-- The point object `addPointToTrack` constructs from its `position`
argument (`part_000` lines 726-734): coordinates, accuracy and altitude
(falsy altitude becomes `null`) are copied; the timestamp falls back to
the current instant; speed is initialized `null`; battery is the
still-`null` `batteryLevel` local. -/
def mkPoint (now : ℚ) (position : Position) : TrackPoint :=
  { latitude := position.latitude
    longitude := position.longitude
    accuracy := position.accuracy
    altitude := if jsFalsy position.altitude then .null else position.altitude
    timestamp := position.timestamp.getD now
    speed := .null
    battery := .null }

/-- `addPointToTrack(position)` (`part_000` lines 706-802). Returns
`none` when no active track exists. Builds the point (battery stays
`null`: the asynchronous `navigator.getBattery()` promise resolves only
after this synchronous function returns, by JavaScript run-to-completion,
so the captured `batteryLevel` is still `null` when the point object is
constructed). With a previous point, rejects the fix when
`distance < MINIMUM_DISTANCE && timeDiff < 1000` (ms); on acceptance
computes the speed in m/s (`0` if no time elapsed), accumulates the
distance, appends the point and updates the duration. The point built
at the top of the function (before the speed computation) is split out
as `mkPoint`. -/
def addPointToTrack (dist : ℚ → ℚ → ℚ → ℚ → ℚ) (now : ℚ)
    (current : Option Track) (position : Position) : Option Track :=
  match current with
  | none => none
  | some currentTrack =>
    if currentTrack.active = false then none
    else
      let point : TrackPoint := mkPoint now position
      match currentTrack.points.getLast? with
      | some lastPoint =>
        let distance := jcalculateDistance dist lastPoint.latitude lastPoint.longitude
          point.latitude point.longitude
        let timeDiff : ℚ := point.timestamp - lastPoint.timestamp
        if jlt distance (.num MINIMUM_DISTANCE) = true ∧ timeDiff < 1000 then
          some currentTrack
        else
          let point2 : TrackPoint :=
            { point with speed :=
                if 0 < timeDiff then jdiv distance (.num (timeDiff / 1000)) else .num 0 }
          some (updateDuration
            { currentTrack with
                distance := jadd currentTrack.distance distance
                points := currentTrack.points ++ [point2] })
      | none =>
        let point2 : TrackPoint := { point with speed := .num 0 }
        some (updateDuration { currentTrack with points := currentTrack.points ++ [point2] })

/-- One `addPointToTrack` call site: the instant of the call and the
position it delivers. -/
structure AddInput where
  now : ℚ
  pos : Position
deriving DecidableEq, Repr

/-- The timestamp the appended point would carry for this input. -/
def resolvedTs (inp : AddInput) : ℚ := inp.pos.timestamp.getD inp.now

/-- A sequence of `addPointToTrack` calls threaded through the active
track slot. -/
def runAdds (dist : ℚ → ℚ → ℚ → ℚ → ℚ) (t0 : Option Track) (l : List AddInput) :
    Option Track :=
  l.foldl (fun acc inp => addPointToTrack dist inp.now acc inp.pos) t0

/-- The pairwise distances between consecutive stored points. -/
def consecDists (dist : ℚ → ℚ → ℚ → ℚ → ℚ) : List TrackPoint → List JVal
  | [] => []
  | [_] => []
  | a :: b :: rest =>
      jcalculateDistance dist a.latitude a.longitude b.latitude b.longitude ::
        consecDists dist (b :: rest)

/-- The from-scratch sum of pairwise distances between consecutive
stored points (JavaScript addition, starting from 0). -/
def pathSum (dist : ℚ → ℚ → ℚ → ℚ → ℚ) (points : List TrackPoint) : JVal :=
  (consecDists dist points).foldl jadd (.num 0)

/-- The `extraData` patch that callers may pass to `stopTrack`, as a
partial record over the track fields such a patch carries (absent field =
property not present on the patch object). -/
structure ExtraData where
  name : Option String := none
  distance : Option JVal := none
  duration : Option ℚ := none
  points : Option (List TrackPoint) := none
  speedData : Option SpeedData := none
deriving DecidableEq, Repr

/-- `Object.assign(currentTrack, extraData)` (`part_000` lines 820-822):
every property present on the patch is copied onto the track,
overwriting the track's value; absent properties leave the track
untouched. -/
def applyExtra (t : Track) (e : ExtraData) : Track :=
  { t with
      name := e.name.getD t.name
      distance := e.distance.getD t.distance
      duration := e.duration.getD t.duration
      points := e.points.getD t.points
      speedData := match e.speedData with
        | some sd => some sd
        | none => t.speedData }

/-- The speed-backfill pass of `stopTrack` (`part_000` lines 832-852)
over the points after the first: a point whose speed is
`null`/`undefined`/`0` gets `distance / timeDiffSeconds` (m/s) when time
elapsed, and keeps its speed otherwise. The predecessor is the
already-processed previous element (the source mutates the array in
place), whose coordinates and timestamp the pass never changes. -/
def stopBackfill (dist : ℚ → ℚ → ℚ → ℚ → ℚ) :
    TrackPoint → List TrackPoint → List TrackPoint
  | _, [] => []
  | prev, p :: rest =>
    let p2 :=
      if p.speed = JVal.null ∨ p.speed = JVal.undef ∨ p.speed = JVal.num 0 then
        let d := jcalculateDistance dist prev.latitude prev.longitude p.latitude p.longitude
        let tds := (p.timestamp - prev.timestamp) / 1000
        if 0 < tds then { p with speed := jdiv d (.num tds) } else p
      else p
    p2 :: stopBackfill dist p2 rest

/-- The `points.map` of `stopTrack`: index 0 is left as is (the backfill
condition requires `index > 0`). -/
def stopMapPoints (dist : ℚ → ℚ → ℚ → ℚ → ℚ) (points : List TrackPoint) :
    List TrackPoint :=
  match points with
  | [] => []
  | p0 :: rest => p0 :: stopBackfill dist p0 rest

/-- The valid-speed test of `stopTrack`'s collection pass
(`point.speed !== null && point.speed !== undefined && !isNaN(point.speed)`). -/
def hasValidSpeed (p : TrackPoint) : Bool :=
  decide (p.speed ≠ JVal.null) && decide (p.speed ≠ JVal.undef) && !jsIsNaN p.speed

/-- `stopTrack(extraData)` (`part_000` lines 809-906). Marks the track
inactive, sets `endTime`, `Object.assign`s the patch, backfills missing
speeds, collects the km/h speed values and time labels of valid-speed
points and, when some exist and no `speedData` block is present yet,
attaches one. `toFixed1` renders a number to one decimal (the source's
`toFixed(1)`); `fmt` formats a timestamp as a local time label. The
history-store write and active-slot clear are store glue not modelled. -/
def stopTrack (dist : ℚ → ℚ → ℚ → ℚ → ℚ) (toFixed1 : JVal → String)
    (fmt : ℚ → String) (now : ℚ) (current : Option Track)
    (extraData : Option ExtraData) : Option Track :=
  match current with
  | none => none
  | some currentTrack =>
    if currentTrack.active = false then none
    else
      let t1 := { currentTrack with active := false, endTime := some now }
      let t2 := match extraData with
        | some e => applyExtra t1 e
        | none => t1
      if t2.points.length = 0 then some t2
      else
        let newPoints := stopMapPoints dist t2.points
        let speedsKmh := newPoints.filterMap fun p =>
          if hasValidSpeed p then some (jmul p.speed (.num 3.6)) else none
        let labels := newPoints.filterMap fun p =>
          if hasValidSpeed p then some (fmt p.timestamp) else none
        let t3 := { t2 with points := newPoints }
        if 0 < speedsKmh.length ∧ t3.speedData = none then
          let avgSpeed := jdiv (speedsKmh.foldl jadd (.num 0)) (.num speedsKmh.length)
          let maxSpeed := speedsKmh.foldl jmax .negInf
          let sd : SpeedData :=
            { history := speedsKmh
              timeLabels := labels
              averageSpeed := toFixed1 avgSpeed
              maxSpeed := toFixed1 maxSpeed }
          some { t3 with speedData := some sd }
        else some t3

/-! ## Trajectory cleaner (source: `prepareTrackData`, `part_000` lines
46-92). -/

/-- The `JSON.parse(JSON.stringify(.))` image of a point (the deep copy
taken by `prepareTrackData`): `NaN` and infinities become `null`. -/
def jsonClonePoint (p : TrackPoint) : TrackPoint :=
  { latitude := jsonRound p.latitude
    longitude := jsonRound p.longitude
    accuracy := jsonRound p.accuracy
    altitude := jsonRound p.altitude
    timestamp := p.timestamp
    speed := jsonRound p.speed
    battery := jsonRound p.battery }

/-- The `JSON` deep copy of a whole track. -/
def jsonCloneTrack (t : Track) : Track :=
  { t with
      points := t.points.map jsonClonePoint
      distance := jsonRound t.distance
      speedData := t.speedData.map (fun sd => { sd with history := sd.history.map jsonRound }) }

/-- The `v !== undefined` test. -/
def isUndef : JVal → Bool
  | .undef => true
  | _ => false

/-- The invalid-point filter of `prepareTrackData`
(`latitude !== undefined && longitude !== undefined && !isNaN(latitude)
&& !isNaN(longitude)`). After the JSON copy, `NaN` coordinates have
already become `null`, which this test lets through. -/
def validCoordPoint (p : TrackPoint) : Bool :=
  !isUndef p.latitude && !isUndef p.longitude &&
    !jsIsNaN p.latitude && !jsIsNaN p.longitude

/-- One iteration of the speed-backfill loop of `prepareTrackData`
(`part_000` lines 67-89): a point with falsy speed
(`!currentPoint.speed || currentPoint.speed === 0`) gets
`distance / 1000 / timeDiffHours` — a km/h value — when time elapsed,
and speed `0` otherwise; a point with a truthy speed passes through. -/
def cleanStep (dist : ℚ → ℚ → ℚ → ℚ → ℚ) (prev p : TrackPoint) : TrackPoint :=
  if jsFalsy p.speed then
    let d := jcalculateDistance dist prev.latitude prev.longitude p.latitude p.longitude
    let tdh := (p.timestamp - prev.timestamp) / (1000 * 60 * 60)
    if 0 < tdh then { p with speed := jdiv (jdiv d (.num 1000)) (.num tdh) }
    else { p with speed := .num 0 }
  else p

/-- The speed-backfill loop of `prepareTrackData` over the points after
the first. The predecessor is the already-processed previous element
(in-place mutation in the source), whose coordinates and timestamp the
pass never changes. -/
def cleanBackfill (dist : ℚ → ℚ → ℚ → ℚ → ℚ) :
    TrackPoint → List TrackPoint → List TrackPoint
  | _, [] => []
  | prev, p :: rest =>
    let p2 := cleanStep dist prev p
    p2 :: cleanBackfill dist p2 rest

/-- The sorted-then-filtered point list of `prepareTrackData` (stable
ascending sort by timestamp, then the invalid-point filter), applied to
the JSON-copied points. -/
def sortedFilteredPoints (t : Track) : List TrackPoint :=
  ((t.points.map jsonClonePoint).mergeSort fun a b => a.timestamp ≤ b.timestamp).filter
    validCoordPoint

/-- `prepareTrackData(track)` (`part_000` lines 46-92): no-op on a
missing track or empty point list; otherwise deep-copies, sorts by
timestamp, filters invalid points, and backfills missing speeds. -/
def prepareTrackData (dist : ℚ → ℚ → ℚ → ℚ → ℚ) (track : Option Track) :
    Option Track :=
  match track with
  | none => none
  | some t =>
    if t.points.length = 0 then some t
    else
      let final := match sortedFilteredPoints t with
        | [] => []
        | p0 :: rest => p0 :: cleanBackfill dist p0 rest
      some { jsonCloneTrack t with points := final }

/-! ## Statistics aggregator (source: `calculateTrackStats`, `part_001`
lines 344-410; the copies in `part_000` differ — lines 586-600 skip the
km/h conversion, lines 1086-1124 add an `isNaN` test and a guard on the
fallback). -/

/-- A JavaScript value that is either a string or a number: the type of
the `maxSpeed` statistic (`track.speedData?.maxSpeed` is a `toFixed`
string, the recomputed maximum a number). -/
inductive SNum where
  | s : String → SNum
  | n : JVal → SNum
deriving DecidableEq, Repr

/-- The statistics record returned by `calculateTrackStats` (`part_001`
stubs `elevationGain`/`elevationLoss` to 0). -/
structure TrackStats where
  distance : JVal
  duration : ℚ
  averageSpeed : JVal
  maxSpeed : SNum
  elevationGain : ℚ
  elevationLoss : ℚ
  speedHistory : List JVal
  timeLabels : List String
deriving DecidableEq, Repr

/-- The all-zero statistics returned for a missing track or fewer than
2 points. -/
def zeroStats : TrackStats :=
  { distance := .num 0
    duration := 0
    averageSpeed := .num 0
    maxSpeed := .n (.num 0)
    elevationGain := 0
    elevationLoss := 0
    speedHistory := []
    timeLabels := [] }

/-- The valid-speed test of `calculateTrackStats`
(`point.speed !== null && point.speed !== undefined`). -/
def statsValidSpeed (p : TrackPoint) : Bool :=
  decide (p.speed ≠ JVal.null) && decide (p.speed ≠ JVal.undef)

/-- `calculateTrackStats(track)` (`part_001` lines 344-410, object
argument; the string-id overload is a store lookup not modelled).
Collects `speed * 3.6` over valid-speed points; the average speed is
their mean when any exist, else `track.distance / 1000 /
(track.duration / 3600)`; `speedData`, when attached, takes precedence
for history, labels and maximum. -/
def calculateTrackStats (fmt : ℚ → String) (track : Option Track) : TrackStats :=
  match track with
  | none => zeroStats
  | some t =>
    if t.points.length < 2 then zeroStats
    else
      let speeds := t.points.filterMap fun p =>
        if statsValidSpeed p then some (jmul p.speed (.num 3.6)) else none
      let maxSpeed := speeds.foldl jmax (.num 0)
      let timeLabels := t.points.filterMap fun p =>
        if statsValidSpeed p then some (fmt p.timestamp) else none
      let finalSpeedHistory := match t.speedData with
        | some sd => sd.history
        | none => speeds
      let finalTimeLabels := match t.speedData with
        | some sd => sd.timeLabels
        | none => timeLabels
      let finalMaxSpeed := match t.speedData with
        | some sd => if sd.maxSpeed = "" then SNum.n maxSpeed else SNum.s sd.maxSpeed
        | none => SNum.n maxSpeed
      let averageSpeed :=
        if 0 < speeds.length then jdiv (speeds.foldl jadd (.num 0)) (.num speeds.length)
        else jdiv (jdiv t.distance (.num 1000)) (.num (t.duration / 3600))
      { distance := t.distance
        duration := t.duration
        averageSpeed := averageSpeed
        maxSpeed := finalMaxSpeed
        elevationGain := 0
        elevationLoss := 0
        speedHistory := finalSpeedHistory
        timeLabels := finalTimeLabels }

/-! ## GPX export (source: `exportTrackToGPX` / `escapeXml`, `part_001`
lines 274-337, identical copies in `part_000`). Number-to-string
rendering (JavaScript template interpolation of numbers) is the explicit
parameter `renderNum`. -/

/-- The replacement of one character under `escapeXml`'s
`replace(/[<>&'"]/g, ...)`. -/
def escapeChar (c : Char) : String :=
  if c = '<' then "&lt;"
  else if c = '>' then "&gt;"
  else if c = '&' then "&amp;"
  else if c = Char.ofNat 39 then "&apos;"
  else if c = Char.ofNat 34 then "&quot;"
  else String.singleton c

/-- `escapeXml(text)` (`part_001` lines 322-337): global character-wise
replacement of the five XML special characters by their entities. -/
def escapeXml (text : String) : String :=
  String.join (text.data.map escapeChar)

/-- Template interpolation `${v}` of a stored value. -/
def renderJVal (renderNum : ℚ → String) : JVal → String
  | .null => "null"
  | .undef => "undefined"
  | .nan => "NaN"
  | .posInf => "Infinity"
  | .negInf => "-Infinity"
  | .num q => renderNum q

/-- `getTrackById(id)`: first stored track with this id, if any. -/
def getTrackById (tracks : List Track) (id : String) : Option Track :=
  tracks.find? fun t => t.id = id

/-- The `<trkpt>` fragment appended for one point by `exportTrackToGPX`
(`part_001` lines 292-298). -/
def trkptChunk (renderNum : ℚ → String) (point : TrackPoint) : String :=
  "\n      <trkpt lat=\"" ++ renderJVal renderNum point.latitude ++ "\" lon=\"" ++
    renderJVal renderNum point.longitude ++ "\">\n        " ++
    (if point.altitude ≠ JVal.null then
      "<ele>" ++ renderJVal renderNum point.altitude ++ "</ele>"
    else "") ++
    "\n        <time>" ++ renderNum point.timestamp ++ "</time>\n      </trkpt>"

/-- The GPX header built by `exportTrackToGPX` before the point loop
(`part_001` lines 281-289). -/
def gpxHeader (renderNum : ℚ → String) (track : Track) : String :=
  "<?xml version=\"1.0\" encoding=\"UTF-8\"?>\n<gpx version=\"1.1\" creator=\"GeoLocator IoT App\" xmlns=\"http://www.topografix.com/GPX/1/1\">\n  <metadata>\n    <name>" ++
    escapeXml track.name ++ "</name>\n    <time>" ++ renderNum track.startTime ++
    "</time>\n  </metadata>\n  <trk>\n    <name>" ++ escapeXml track.name ++
    "</name>\n    <trkseg>"

/-- The closing GPX fragment. -/
def gpxFooter : String := "\n    </trkseg>\n  </trk>\n</gpx>"

/-- `exportTrackToGPX(trackId)` (`part_001` lines 274-307): `none` when
the id is not stored; otherwise the header, one `<trkpt>` fragment per
point accumulated in point order, and the footer. -/
def exportTrackToGPX (renderNum : ℚ → String) (tracks : List Track)
    (trackId : String) : Option String :=
  match getTrackById tracks trackId with
  | none => none
  | some track =>
    some ((track.points.foldl (fun gpx point => gpx ++ trkptChunk renderNum point)
      (gpxHeader renderNum track)) ++ gpxFooter)

/-- The characters of the opening token `<trkpt` of a track-point
element. -/
def trkptTok : List Char := ['<', 't', 'r', 'k', 'p', 't']

/-- Number of positions of a character list where a `<trkpt` element
opens. -/
def countTokL : List Char → Nat
  | [] => 0
  | c :: cs => (if trkptTok.isPrefixOf (c :: cs) then 1 else 0) + countTokL cs

/-- Number of `<trkpt` element openings in a string. -/
def countTrkpt (s : String) : Nat := countTokL s.data

/-! ## Helper lemmas -/

theorem updateDuration_points (t : Track) : (updateDuration t).points = t.points := by
  unfold updateDuration
  split
  · split <;> rfl
  · rfl

theorem updateDuration_distance (t : Track) :
    (updateDuration t).distance = t.distance := by
  unfold updateDuration
  split
  · split <;> rfl
  · rfl

theorem runAdds_none (dist : ℚ → ℚ → ℚ → ℚ → ℚ) (l : List AddInput) :
    runAdds dist none l = none := by
  induction l with
  | nil => rfl
  | cons inp l ih => simpa [runAdds, addPointToTrack] using ih

theorem runAdds_cons (dist : ℚ → ℚ → ℚ → ℚ → ℚ) (t0 : Option Track)
    (inp : AddInput) (l : List AddInput) :
    runAdds dist t0 (inp :: l) =
      runAdds dist (addPointToTrack dist inp.now t0 inp.pos) l := rfl

/-- The track produced by the acceptance branch of `addPointToTrack`
when `lp` is the last stored point. -/
def acceptStep (dist : ℚ → ℚ → ℚ → ℚ → ℚ) (now : ℚ) (t : Track) (pos : Position)
    (lp : TrackPoint) : Track :=
  let point := mkPoint now pos
  let distance := jcalculateDistance dist lp.latitude lp.longitude
    point.latitude point.longitude
  let timeDiff := point.timestamp - lp.timestamp
  updateDuration
    { t with
        distance := jadd t.distance distance
        points := t.points ++
          [{ point with speed :=
              (if 0 < timeDiff then jdiv distance (.num (timeDiff / 1000))
               else .num 0) }] }

theorem addPoint_last_some (dist : ℚ → ℚ → ℚ → ℚ → ℚ) (now : ℚ) (t : Track)
    (pos : Position) (lp : TrackPoint)
    (hact : t.active = true) (hgl : t.points.getLast? = some lp) :
    addPointToTrack dist now (some t) pos =
      if jlt (jcalculateDistance dist lp.latitude lp.longitude
            pos.latitude pos.longitude) (.num MINIMUM_DISTANCE) = true ∧
          pos.timestamp.getD now - lp.timestamp < 1000
      then some t
      else some (acceptStep dist now t pos lp) := by
  simp only [addPointToTrack, hact, hgl, acceptStep, mkPoint]
  rfl

theorem addPoint_last_none (dist : ℚ → ℚ → ℚ → ℚ → ℚ) (now : ℚ) (t : Track)
    (pos : Position)
    (hact : t.active = true) (hgl : t.points.getLast? = none) :
    addPointToTrack dist now (some t) pos =
      some (updateDuration
        { t with points := t.points ++ [{ mkPoint now pos with speed := .num 0 }] }) := by
  simp [addPointToTrack, hact, hgl]

/-! ## C8 — haversine symmetry and zero at equal coordinates -/

theorem haversineA_symm (a b c d : ℝ) : haversineA a b c d = haversineA c d a b := by
  unfold haversineA
  rw [show (a - c) * Real.pi / 180 / 2 = -((c - a) * Real.pi / 180 / 2) by ring,
    show (b - d) * Real.pi / 180 / 2 = -((d - b) * Real.pi / 180 / 2) by ring,
    Real.sin_neg, Real.sin_neg]
  ring

theorem haversineA_self (a b : ℝ) : haversineA a b a b = 0 := by
  simp [haversineA]

/-- C8: for all coordinate pairs (finite degrees — every real number),
the haversine `calculateDistance` is symmetric in its two coordinate
arguments, and evaluates to exactly 0 on a pair of equal coordinates. -/
theorem claim8_haversine_symm_zero (lat1 lon1 lat2 lon2 : ℝ) :
    calculateDistance lat1 lon1 lat2 lon2 = calculateDistance lat2 lon2 lat1 lon1 ∧
      calculateDistance lat1 lon1 lat1 lon1 = 0 := by
  constructor
  · unfold calculateDistance
    rw [haversineA_symm lat1 lon1 lat2 lon2]
  · unfold calculateDistance
    rw [haversineA_self, Real.sqrt_zero, sub_zero, Real.sqrt_one]
    unfold atan2
    rw [if_pos one_pos]
    norm_num

/-! ## C1 — admission filter of `addPointToTrack` -/

/-- C1: with an active track holding at least one stored point, an
incoming fix at (JavaScript) distance `d` from the last stored point is
rejected — the track is returned unchanged — exactly when `d < 10` and
less than 1000 ms elapsed since the last stored point; otherwise the
point count grows by one. In particular a fix 2 m away after 0.1 s is
rejected and a fix 2 m away after 2 s is appended. -/
theorem claim1_admission_filter
    (dist : ℚ → ℚ → ℚ → ℚ → ℚ) (now : ℚ) (t : Track) (pos : Position)
    (ps : List TrackPoint) (lp : TrackPoint) (d : ℚ)
    (hact : t.active = true) (hpts : t.points = ps ++ [lp])
    (hd : jcalculateDistance dist lp.latitude lp.longitude pos.latitude pos.longitude
      = JVal.num d) :
    ∃ t2, addPointToTrack dist now (some t) pos = some t2 ∧
      ((d < 10 ∧ pos.timestamp.getD now - lp.timestamp < 1000) → t2 = t) ∧
      (¬(d < 10 ∧ pos.timestamp.getD now - lp.timestamp < 1000) →
        t2.points.length = t.points.length + 1) := by
  have hgl : t.points.getLast? = some lp := by
    rw [hpts]; exact List.getLast?_concat _
  have hstep := addPoint_last_some dist now t pos lp hact hgl
  rw [hd] at hstep
  simp only [jlt, cNum, MINIMUM_DISTANCE, decide_eq_true_eq] at hstep
  by_cases hcond : d < 10 ∧ pos.timestamp.getD now - lp.timestamp < 1000
  · rw [if_pos hcond] at hstep
    exact ⟨t, hstep, fun _ => rfl, fun hn => absurd hcond hn⟩
  · rw [if_neg hcond] at hstep
    refine ⟨_, hstep, fun hc => absurd hc hcond, fun _ => ?_⟩
    simp [acceptStep, updateDuration_points]

/-- Witness for C1: a one-point active track, a constant-2 m distance
function, a 2000 ms gap — the fix is accepted and the track has
2 points. -/
theorem claim1_witness :
    (∃ t2,
      addPointToTrack (fun _ _ _ _ => 2) 0
        (some { id := "w", name := "w", startTime := 0, endTime := none,
                points := [{ latitude := .num 48, longitude := .num 2,
                             accuracy := .num 5, altitude := .null, timestamp := 1000,
                             speed := .num 0, battery := .null }],
                distance := .num 0, duration := 0, active := true, speedData := none })
        { latitude := .num 48, longitude := .num 2, accuracy := .num 5,
          altitude := .null, timestamp := some 3000, speed := .null } = some t2 ∧
      ((2 : ℚ) < 10 ∧ (3000 : ℚ) - 1000 < 1000 → t2 =
        { id := "w", name := "w", startTime := 0, endTime := none,
          points := [{ latitude := .num 48, longitude := .num 2,
                       accuracy := .num 5, altitude := .null, timestamp := 1000,
                       speed := .num 0, battery := .null }],
          distance := .num 0, duration := 0, active := true, speedData := none }) ∧
      (¬((2 : ℚ) < 10 ∧ (3000 : ℚ) - 1000 < 1000) → t2.points.length = 1 + 1)) := by
  have h := claim1_admission_filter (fun _ _ _ _ => 2) 0
    { id := "w", name := "w", startTime := 0, endTime := none,
      points := [{ latitude := .num 48, longitude := .num 2,
                   accuracy := .num 5, altitude := .null, timestamp := 1000,
                   speed := .num 0, battery := .null }],
      distance := .num 0, duration := 0, active := true, speedData := none }
    { latitude := .num 48, longitude := .num 2, accuracy := .num 5,
      altitude := .null, timestamp := some 3000, speed := .null }
    [] { latitude := .num 48, longitude := .num 2, accuracy := .num 5,
         altitude := .null, timestamp := 1000, speed := .num 0, battery := .null }
    2 rfl rfl (by decide)
  simpa using h

/-! ## C10 — appended points always carry a `null` battery -/

/-- C10: whatever the position argument contains, an `addPointToTrack`
call either leaves the stored points unchanged or appends exactly one
point whose `battery` field is `null` (the asynchronous
`navigator.getBattery()` promise resolves only after the synchronous
call returns, so the point is built from the still-`null` local). -/
theorem claim10_battery_null (dist : ℚ → ℚ → ℚ → ℚ → ℚ) (now : ℚ) (t : Track)
    (pos : Position) (t2 : Track)
    (h : addPointToTrack dist now (some t) pos = some t2) :
    t2.points = t.points ∨
      ∃ p, t2.points = t.points ++ [p] ∧ p.battery = JVal.null := by
  by_cases hact : t.active = true
  · cases hgl : t.points.getLast? with
    | none =>
      rw [addPoint_last_none dist now t pos hact hgl] at h
      have h2 := Option.some.inj h
      right
      rw [← h2, updateDuration_points]
      exact ⟨_, rfl, rfl⟩
    | some lp =>
      rw [addPoint_last_some dist now t pos lp hact hgl] at h
      split at h
      · left
        rw [← Option.some.inj h]
      · right
        rw [← Option.some.inj h]
        simp only [acceptStep, updateDuration_points]
        exact ⟨_, rfl, rfl⟩
  · rw [Bool.not_eq_true] at hact
    simp [addPointToTrack, hact] at h

/-- A constant numeric distance function, used to instantiate the
`dist` parameter in concrete evaluations. -/
def constDist (q : ℚ) : ℚ → ℚ → ℚ → ℚ → ℚ := fun _ _ _ _ => q

/-- A fresh active track with no stored point. -/
def emptyActiveTrack : Track :=
  { id := "t1", name := "T", startTime := 0, endTime := none, points := [],
    distance := .num 0, duration := 0, active := true, speedData := none }

/-- A raw fix whose latitude is `NaN` (an invalid coordinate). -/
def nanLatFix : Position :=
  { latitude := .nan, longitude := .num 2, accuracy := .num 5, altitude := .null,
    timestamp := some 1000, speed := .null }

/-- Witness for C10: feeding the NaN-latitude fix to a fresh active
track appends one point, and its battery is `null`. -/
theorem claim10_witness :
    ({ emptyActiveTrack with
        points := [{ mkPoint 0 nanLatFix with speed := JVal.num 0 }] } : Track).points =
        emptyActiveTrack.points ∨
      ∃ p, ({ emptyActiveTrack with
          points := [{ mkPoint 0 nanLatFix with speed := JVal.num 0 }] } : Track).points =
          emptyActiveTrack.points ++ [p] ∧ p.battery = JVal.null :=
  claim10_battery_null (constDist 0) 0 emptyActiveTrack nanLatFix _ (by decide)

/-! ## C3 — `addPointToTrack` does not sanitize coordinates -/

/-- Counterexample to C3: `addPointToTrack` appends a fix whose latitude
is `NaN` — a point with invalid coordinates enters the track, instead of
the fix being dropped. -/
theorem claim3_counterexample :
    (addPointToTrack (constDist 0) 0 (some emptyActiveTrack) nanLatFix).map
        (fun t => t.points.map TrackPoint.latitude) = some [JVal.nan] ∧
      (addPointToTrack (constDist 0) 0 (some emptyActiveTrack) nanLatFix).map
        (fun t => t.points.length) = some 1 := by
  decide

/-- C3 as amended: `addPointToTrack` performs no coordinate validation
at all — on an active track with no stored point, any fix (missing,
`NaN` or non-finite coordinates included) is appended verbatim without
an exception; invalid coordinates are only removed later by the
trajectory cleaner's filter. -/
theorem claim3_no_sanitization (dist : ℚ → ℚ → ℚ → ℚ → ℚ) (now : ℚ) (t : Track)
    (pos : Position) (hact : t.active = true) (hempty : t.points = []) :
    addPointToTrack dist now (some t) pos =
      some { t with points := [{ mkPoint now pos with speed := .num 0 }] } := by
  have hgl : t.points.getLast? = none := by rw [hempty]; rfl
  rw [addPoint_last_none dist now t pos hact hgl]
  simp [hempty, updateDuration]

/-- Witness for the amended C3: the NaN-latitude fix is appended to the
fresh active track exactly as constructed. -/
theorem claim3_witness :
    addPointToTrack (constDist 0) 0 (some emptyActiveTrack) nanLatFix =
      some { emptyActiveTrack with
        points := [{ mkPoint 0 nanLatFix with speed := .num 0 }] } :=
  claim3_no_sanitization (constDist 0) 0 emptyActiveTrack nanLatFix rfl rfl

/-! ## C2 — incremental distance equals the from-scratch pairwise sum -/

theorem consecDists_concat (dist : ℚ → ℚ → ℚ → ℚ → ℚ) (ps : List TrackPoint)
    (lp p : TrackPoint) :
    consecDists dist ((ps ++ [lp]) ++ [p]) =
      consecDists dist (ps ++ [lp]) ++
        [jcalculateDistance dist lp.latitude lp.longitude p.latitude p.longitude] := by
  induction ps with
  | nil => simp [consecDists]
  | cons a ps ih =>
    cases ps with
    | nil => simp [consecDists]
    | cons b ps2 => simpa [consecDists] using ih

theorem pathSum_concat (dist : ℚ → ℚ → ℚ → ℚ → ℚ) (ps : List TrackPoint)
    (lp p : TrackPoint) :
    pathSum dist ((ps ++ [lp]) ++ [p]) =
      jadd (pathSum dist (ps ++ [lp]))
        (jcalculateDistance dist lp.latitude lp.longitude p.latitude p.longitude) := by
  rw [pathSum, consecDists_concat, List.foldl_append]
  rfl

theorem addPoint_distance_inv (dist : ℚ → ℚ → ℚ → ℚ → ℚ) (now : ℚ) (t : Track)
    (pos : Position) (t2 : Track)
    (h : addPointToTrack dist now (some t) pos = some t2)
    (hinv : t.distance = pathSum dist t.points) :
    t2.distance = pathSum dist t2.points := by
  by_cases hact : t.active = true
  · cases hgl : t.points.getLast? with
    | none =>
      have hnil : t.points = [] := List.getLast?_eq_none_iff.mp hgl
      rw [addPoint_last_none dist now t pos hact hgl] at h
      rw [← Option.some.inj h, updateDuration_points, updateDuration_distance, hnil]
      rw [hinv, hnil]
      rfl
    | some lp =>
      obtain ⟨ps, hps⟩ := List.getLast?_eq_some_iff.mp hgl
      rw [addPoint_last_some dist now t pos lp hact hgl] at h
      split at h
      · rw [← Option.some.inj h]
        exact hinv
      · rw [← Option.some.inj h]
        simp only [acceptStep, updateDuration_points, updateDuration_distance]
        rw [hps, pathSum_concat, ← hps, hinv]
  · rw [Bool.not_eq_true] at hact
    simp [addPointToTrack, hact] at h

theorem runAdds_distance_inv (dist : ℚ → ℚ → ℚ → ℚ → ℚ) (l : List AddInput) :
    ∀ t0 t, t0.distance = pathSum dist t0.points →
      runAdds dist (some t0) l = some t → t.distance = pathSum dist t.points := by
  induction l with
  | nil =>
    intro t0 t hinv h
    rw [← Option.some.inj h]
    exact hinv
  | cons inp l ih =>
    intro t0 t hinv h
    rw [runAdds_cons] at h
    cases hstep : addPointToTrack dist inp.now (some t0) inp.pos with
    | none =>
      rw [hstep, runAdds_none] at h
      exact absurd h (by simp)
    | some t1 =>
      rw [hstep] at h
      exact ih t1 t (addPoint_distance_inv dist inp.now t0 inp.pos t1 hstep hinv) h

/-- C2: after `startTrack` and any sequence of `addPointToTrack` calls,
the track's `distance` field equals the sum of the pairwise distances
between consecutive stored points, recomputed independently from the
stored point list (`pathSum`). Stated for every distance function, hence
in particular for the haversine. -/
theorem claim2_incremental_distance (dist : ℚ → ℚ → ℚ → ℚ → ℚ)
    (sid name nowStr : String) (now0 : ℚ) (l : List AddInput) (t : Track)
    (h : runAdds dist (some (startTrack sid name nowStr now0)) l = some t) :
    t.distance = pathSum dist t.points :=
  runAdds_distance_inv dist l (startTrack sid name nowStr now0) t rfl h

/-- A numeric raw fix at a given timestamp, for concrete runs. -/
def fixAt (ts : ℚ) : Position :=
  { latitude := .num 48, longitude := .num 2, accuracy := .num 5, altitude := .null,
    timestamp := some ts, speed := .null }

/-- The track the concrete two-call witness run produces. -/
def twoCallRunResult : Track :=
  { id := "s", name := "A", startTime := 0, endTime := none,
    points :=
      [{ latitude := .num 48, longitude := .num 2, accuracy := .num 5,
         altitude := .null, timestamp := 1000, speed := .num 0, battery := .null },
       { latitude := .num 48, longitude := .num 2, accuracy := .num 5,
         altitude := .null, timestamp := 3000, speed := .num (7 / 2), battery := .null }],
    distance := .num 7, duration := 2, active := true, speedData := none }

/-- Witness for C2: a concrete two-call run with a constant 7 m distance
function evaluates to `twoCallRunResult`, which satisfies the
invariant. -/
theorem claim2_witness :
    runAdds (constDist 7) (some (startTrack "s" "A" "d" 0))
        [⟨0, fixAt 1000⟩, ⟨0, fixAt 3000⟩] = some twoCallRunResult ∧
      twoCallRunResult.distance = pathSum (constDist 7) twoCallRunResult.points := by
  have h : runAdds (constDist 7) (some (startTrack "s" "A" "d" 0))
      [⟨0, fixAt 1000⟩, ⟨0, fixAt 3000⟩] = some twoCallRunResult := by
    simp only [runAdds, List.foldl, addPointToTrack, startTrack, mkPoint, fixAt,
      constDist, jcalculateDistance, toFiniteNum, cNum, jlt, jdiv, jadd,
      updateDuration, MINIMUM_DISTANCE, twoCallRunResult]
    norm_num
    exact fun h => absurd h (by decide)
  exact ⟨h, claim2_incremental_distance (constDist 7) "s" "A" "d" 0
    [⟨0, fixAt 1000⟩, ⟨0, fixAt 3000⟩] twoCallRunResult h⟩

/-! ## C5 — duration invariant -/

/-- The duration invariant of an active track: zero below 2 points, and
otherwise the last-minus-first timestamp difference in seconds (at
exactly one point both clauses coincide at 0). -/
def durOK (t : Track) : Prop :=
  (t.points.length < 2 → t.duration = 0) ∧
    (∀ f l, t.points.head? = some f → t.points.getLast? = some l →
      t.duration = (l.timestamp - f.timestamp) / 1000)

theorem updateDuration_eq_of_le (X : Track) (h : X.points.length ≤ 1) :
    updateDuration X = X := by
  unfold updateDuration
  rw [if_neg (by omega)]

theorem updateDuration_eq_of_lt (X : Track) (f l : TrackPoint)
    (hf : X.points.head? = some f) (hl : X.points.getLast? = some l)
    (h : 1 < X.points.length) :
    updateDuration X = { X with duration := (l.timestamp - f.timestamp) / 1000 } := by
  unfold updateDuration
  rw [if_pos h, hf, hl]

theorem durOK_updateDuration (X : Track)
    (h1 : X.points.length ≤ 1 → X.duration = 0) : durOK (updateDuration X) := by
  by_cases hlen : 1 < X.points.length
  · cases hp : X.points with
    | nil => rw [hp] at hlen; simp at hlen
    | cons f rest =>
      have hne : X.points ≠ [] := by rw [hp]; simp
      have hf : X.points.head? = some f := by rw [hp]; rfl
      have hl := List.getLast?_eq_getLast X.points hne
      rw [updateDuration_eq_of_lt X f _ hf hl hlen]
      constructor
      · intro hlt
        exact absurd (show X.points.length < 2 from hlt) (by omega)
      · intro f2 l2 hf2 hl2
        have hf2b : X.points.head? = some f2 := hf2
        have hl2b : X.points.getLast? = some l2 := hl2
        rw [hf] at hf2b
        rw [hl] at hl2b
        rw [← Option.some.inj hf2b, ← Option.some.inj hl2b]
  · rw [updateDuration_eq_of_le X (by omega)]
    constructor
    · intro _
      exact h1 (by omega)
    · intro f l hf hl
      cases hp : X.points with
      | nil => rw [hp] at hf; exact absurd hf (by simp)
      | cons a rest =>
        cases hrest : rest with
        | nil =>
          rw [hp, hrest] at hf hl
          have ha : a = f := by simpa using hf
          have hb : a = l := by simpa using hl
          rw [← ha, ← hb, sub_self, zero_div]
          exact h1 (by omega)
        | cons b rest2 =>
          rw [hp, hrest] at hlen
          exact absurd (by simp) hlen

theorem addPoint_durOK (dist : ℚ → ℚ → ℚ → ℚ → ℚ) (now : ℚ) (t : Track)
    (pos : Position) (t2 : Track)
    (h : addPointToTrack dist now (some t) pos = some t2)
    (hdur : durOK t) :
    durOK t2 ∧ (t2.points = t.points ∨
      ∃ p, t2.points = t.points ++ [p] ∧ p.timestamp = pos.timestamp.getD now) := by
  by_cases hact : t.active = true
  · cases hgl : t.points.getLast? with
    | none =>
      have hnil : t.points = [] := List.getLast?_eq_none_iff.mp hgl
      rw [addPoint_last_none dist now t pos hact hgl] at h
      rw [← Option.some.inj h]
      constructor
      · apply durOK_updateDuration
        intro _
        exact hdur.1 (by rw [hnil]; simp)
      · right
        rw [updateDuration_points]
        exact ⟨_, rfl, rfl⟩
    | some lp =>
      obtain ⟨ps, hps⟩ := List.getLast?_eq_some_iff.mp hgl
      rw [addPoint_last_some dist now t pos lp hact hgl] at h
      split at h
      · rw [← Option.some.inj h]
        exact ⟨hdur, Or.inl rfl⟩
      · rw [← Option.some.inj h]
        constructor
        · apply durOK_updateDuration
          intro hle
          rw [List.length_append, hps, List.length_append] at hle
          simp at hle
        · right
          simp only [acceptStep, updateDuration_points]
          exact ⟨_, rfl, rfl⟩
  · rw [Bool.not_eq_true] at hact
    simp [addPointToTrack, hact] at h

/-- Timestamp order between two stored points. -/
def tsLE (a b : TrackPoint) : Prop := a.timestamp ≤ b.timestamp

theorem runAdds_duration_inv (dist : ℚ → ℚ → ℚ → ℚ → ℚ) (l : List AddInput) :
    ∀ t0 t, durOK t0 → t0.points.Pairwise tsLE →
      (∀ p ∈ t0.points, ∀ inp ∈ l, p.timestamp ≤ resolvedTs inp) →
      (l.map resolvedTs).Pairwise (· ≤ ·) →
      runAdds dist (some t0) l = some t →
      durOK t ∧ t.points.Pairwise tsLE := by
  induction l with
  | nil =>
    intro t0 t h1 h2 _ _ h
    rw [← Option.some.inj h]
    exact ⟨h1, h2⟩
  | cons inp l ih =>
    intro t0 t h1 h2 hbound hmono h
    rw [runAdds_cons] at h
    cases hstep : addPointToTrack dist inp.now (some t0) inp.pos with
    | none =>
      rw [hstep, runAdds_none] at h
      exact absurd h (by simp)
    | some t1 =>
      rw [hstep] at h
      obtain ⟨hd1, hshape⟩ := addPoint_durOK dist inp.now t0 inp.pos t1 hstep h1
      rw [List.map_cons] at hmono
      have hmono_tail := hmono.of_cons
      have hx : ∀ y ∈ l, resolvedTs inp ≤ resolvedTs y := by
        intro y hy
        exact (List.pairwise_cons.mp hmono).1 _ (List.mem_map_of_mem _ hy)
      cases hshape with
      | inl heq =>
        refine ih t1 t hd1 (heq ▸ h2) ?_ hmono_tail h
        intro p hp inp2 hinp2
        exact hbound p (heq ▸ hp) inp2 (List.mem_cons_of_mem _ hinp2)
      | inr hex =>
        obtain ⟨p, hpts, hts⟩ := hex
        refine ih t1 t hd1 ?_ ?_ hmono_tail h
        · rw [hpts]
          refine List.pairwise_append.mpr ⟨h2, by simp [tsLE], ?_⟩
          intro a ha b hb
          rw [List.mem_singleton.mp hb, tsLE, hts]
          exact hbound a ha inp (List.mem_cons_self _ _)
        · intro q hq inp2 hinp2
          rw [hpts] at hq
          rcases List.mem_append.mp hq with hq0 | hq1
          · exact hbound q hq0 inp2 (List.mem_cons_of_mem _ hinp2)
          · rw [List.mem_singleton.mp hq1, hts]
            exact hx inp2 hinp2

/-- C5: after `startTrack` and any sequence of `addPointToTrack` calls
with chronologically delivered fixes (non-decreasing resolved
timestamps), the track's `duration` is 0 with fewer than 2 stored points
and otherwise equals last-minus-first stored timestamp in seconds, and
it is never negative. -/
theorem claim5_duration (dist : ℚ → ℚ → ℚ → ℚ → ℚ)
    (sid name nowStr : String) (now0 : ℚ) (l : List AddInput) (t : Track)
    (hmono : (l.map resolvedTs).Pairwise (· ≤ ·))
    (h : runAdds dist (some (startTrack sid name nowStr now0)) l = some t) :
    (t.points.length < 2 → t.duration = 0) ∧
      (∀ f lpt, t.points.head? = some f → t.points.getLast? = some lpt →
        t.duration = (lpt.timestamp - f.timestamp) / 1000) ∧
      0 ≤ t.duration := by
  have hstart : durOK (startTrack sid name nowStr now0) := by
    constructor
    · intro _; rfl
    · intro f lpt hf _
      exact absurd hf (by simp [startTrack])
  obtain ⟨hd, hp⟩ := runAdds_duration_inv dist l (startTrack sid name nowStr now0) t
    hstart (by simp [startTrack]) (by simp [startTrack]) hmono h
  refine ⟨hd.1, hd.2, ?_⟩
  cases hpts : t.points with
  | nil =>
    rw [hd.1 (by rw [hpts]; simp)]
  | cons f rest =>
    cases hrest : rest with
    | nil =>
      rw [hd.1 (by rw [hpts, hrest]; simp)]
    | cons b rest2 =>
      have hne : t.points ≠ [] := by rw [hpts]; simp
      obtain ⟨lpt, hlast⟩ : ∃ lpt, t.points.getLast? = some lpt :=
        ⟨_, List.getLast?_eq_getLast t.points hne⟩
      have hdur := hd.2 f lpt (by rw [hpts]; rfl) hlast
      rw [hdur]
      apply div_nonneg _ (by norm_num)
      rw [sub_nonneg]
      obtain ⟨l2, hl2⟩ := List.getLast?_eq_some_iff.mp hlast
      rw [hpts] at hl2
      have hmem : lpt ∈ rest := by
        cases l2 with
        | nil =>
          rw [hrest] at hl2
          simp at hl2
        | cons c l2t =>
          have htl : rest = l2t ++ [lpt] := (List.cons.inj hl2).2
          rw [htl]
          simp
      have hpw := hp
      rw [hpts] at hpw
      exact (List.pairwise_cons.mp hpw).1 _ hmem

/-- Witness for C5: the concrete two-call run (timestamps 1000 then
3000) satisfies the duration clauses. -/
theorem claim5_witness :
    (twoCallRunResult.points.length < 2 → twoCallRunResult.duration = 0) ∧
      (∀ f lpt, twoCallRunResult.points.head? = some f →
        twoCallRunResult.points.getLast? = some lpt →
        twoCallRunResult.duration = (lpt.timestamp - f.timestamp) / 1000) ∧
      0 ≤ twoCallRunResult.duration := by
  apply claim5_duration (constDist 7) "s" "A" "d" 0
    [⟨0, fixAt 1000⟩, ⟨0, fixAt 3000⟩] twoCallRunResult (by decide)
  simp only [runAdds, List.foldl, addPointToTrack, startTrack, mkPoint, fixAt,
    constDist, jcalculateDistance, toFiniteNum, cNum, jlt, jdiv, jadd,
    updateDuration, MINIMUM_DISTANCE, twoCallRunResult]
  norm_num
  exact fun h => absurd h (by decide)

/-! ## C7 — `stopTrack` merges `extraData` by overwriting -/

/-- Counterexample to C7: a track whose `distance` is already (correctly)
5 m, stopped with a patch carrying `distance = 999`, ends up with
distance 999 — `Object.assign` lets the patch overwrite the field, it
does not preserve the track's existing value. -/
theorem claim7_counterexample :
    (stopTrack (constDist 0) (fun _ => "") (fun _ => "") 0
        (some { emptyActiveTrack with distance := JVal.num 5 })
        (some { distance := some (JVal.num 999) })).map Track.distance
      = some (JVal.num 999) ∧
      ({ emptyActiveTrack with distance := JVal.num 5 } : Track).distance = JVal.num 5 ∧
      JVal.num 999 ≠ JVal.num 5 := by
  refine ⟨by decide, rfl, by decide⟩

/-- C7 as amended: when `stopTrack` is called with an `extraData` patch
on an active track, every field present on the patch overwrites the
track's value (`Object.assign` semantics) and every field absent from
the patch keeps the track's value — shown for the `name`, `distance` and
`duration` fields, which the rest of the finalization never touches. -/
theorem claim7_extra_data_overwrites (dist : ℚ → ℚ → ℚ → ℚ → ℚ)
    (toFixed1 : JVal → String) (fmt : ℚ → String) (now : ℚ) (t : Track)
    (e : ExtraData) (t2 : Track)
    (hact : t.active = true)
    (h : stopTrack dist toFixed1 fmt now (some t) (some e) = some t2) :
    t2.name = e.name.getD t.name ∧ t2.distance = e.distance.getD t.distance ∧
      t2.duration = e.duration.getD t.duration := by
  unfold stopTrack at h
  simp only [hact] at h
  rw [if_neg (by simp)] at h
  split at h
  · rw [← Option.some.inj h]
    exact ⟨rfl, rfl, rfl⟩
  · split at h
    · rw [← Option.some.inj h]
      exact ⟨rfl, rfl, rfl⟩
    · rw [← Option.some.inj h]
      exact ⟨rfl, rfl, rfl⟩

/-- The active track whose distance is already 5 m. -/
def trackDist5 : Track := { emptyActiveTrack with distance := JVal.num 5 }

/-- The stop patch carrying `distance = 999`. -/
def patch999 : ExtraData := { distance := some (JVal.num 999) }

/-- The finalized result of stopping `trackDist5` with `patch999` at
instant 0. -/
def stoppedPatched : Track :=
  { emptyActiveTrack with
      distance := JVal.num 999
      active := false
      endTime := some 0 }

/-- Witness for the amended C7: the concrete stop with the
`distance = 999` patch instantiates all three field equations. -/
theorem claim7_witness :
    stoppedPatched.name = patch999.name.getD trackDist5.name ∧
      stoppedPatched.distance = patch999.distance.getD trackDist5.distance ∧
      stoppedPatched.duration = patch999.duration.getD trackDist5.duration :=
  claim7_extra_data_overwrites (constDist 0) (fun _ => "") (fun _ => "") 0
    trackDist5 patch999 stoppedPatched rfl (by decide)

/-! ## C6 — average speed of `calculateTrackStats` -/

/-- The numeric value of a stored speed, when the speed is a number. -/
def numSpeed (p : TrackPoint) : Option ℚ :=
  match p.speed with
  | .num q => some q
  | _ => none

/-- A stored speed that is either `null` or a number (the well-formed
values the recording session writes). -/
def niceSpeed (p : TrackPoint) : Bool :=
  match p.speed with
  | .null => true
  | .num _ => true
  | _ => false

theorem speeds_filterMap (points : List TrackPoint)
    (hnice : ∀ p ∈ points, niceSpeed p = true) :
    points.filterMap
        (fun p => if statsValidSpeed p then some (jmul p.speed (.num 3.6)) else none)
      = (points.filterMap numSpeed).map (fun q => JVal.num (q * 3.6)) := by
  induction points with
  | nil => rfl
  | cons p rest ih =>
    have hp := hnice p (List.mem_cons_self _ _)
    have hrest := ih fun q hq => hnice q (List.mem_cons_of_mem _ hq)
    cases hs : p.speed with
    | null =>
      have hv : statsValidSpeed p = false := by simp [statsValidSpeed, hs]
      have hn : numSpeed p = none := by simp [numSpeed, hs]
      rw [List.filterMap_cons, List.filterMap_cons, hv, hn]
      simpa using hrest
    | num q =>
      have hv : statsValidSpeed p = true := by simp [statsValidSpeed, hs]
      have hn : numSpeed p = some q := by simp [numSpeed, hs]
      have hm : jmul p.speed (.num 3.6) = JVal.num (q * 3.6) := by rw [hs]; rfl
      rw [List.filterMap_cons, List.filterMap_cons, hv, hn, hm]
      simpa using hrest
    | undef => rw [niceSpeed, hs] at hp; simp at hp
    | nan => rw [niceSpeed, hs] at hp; simp at hp
    | posInf => rw [niceSpeed, hs] at hp; simp at hp
    | negInf => rw [niceSpeed, hs] at hp; simp at hp

theorem foldl_jadd_nums (l : List ℚ) (i : ℚ) :
    (l.map JVal.num).foldl jadd (JVal.num i) = JVal.num (i + l.sum) := by
  induction l generalizing i with
  | nil => simp
  | cons a rest ih =>
    simp only [List.map_cons, List.foldl_cons, List.sum_cons]
    rw [show jadd (JVal.num i) (JVal.num a) = JVal.num (i + a) from rfl, ih]
    ring_nf

/-- C6: for a track with at least 2 points and well-formed speeds, the
statistics' average speed is the mean of the per-point speeds converted
to km/h (×3.6) whenever some point carries a numeric speed, and
otherwise falls back to total distance in kilometers divided by duration
in hours. -/
theorem claim6_average_speed (fmt : ℚ → String) (t : Track)
    (h2 : 2 ≤ t.points.length)
    (hnice : ∀ p ∈ t.points, niceSpeed p = true) :
    (t.points.filterMap numSpeed ≠ [] →
      (calculateTrackStats fmt (some t)).averageSpeed =
        JVal.num (((t.points.filterMap numSpeed).map (fun q => q * 3.6)).sum /
          (t.points.filterMap numSpeed).length)) ∧
      (t.points.filterMap numSpeed = [] → ∀ D, t.distance = JVal.num D →
        0 < t.duration →
        (calculateTrackStats fmt (some t)).averageSpeed =
          JVal.num ((D / 1000) / (t.duration / 3600))) := by
  have hsp := speeds_filterMap t.points hnice
  simp only [calculateTrackStats]
  rw [if_neg (by omega)]
  constructor
  · intro hne
    have hlen : 0 < (t.points.filterMap numSpeed).length := List.length_pos.mpr hne
    simp only [hsp, List.length_map]
    rw [if_pos hlen]
    have hmm : (t.points.filterMap numSpeed).map (fun q => JVal.num (q * 3.6)) =
        ((t.points.filterMap numSpeed).map (fun q => q * 3.6)).map JVal.num := by
      rw [List.map_map]
      rfl
    rw [hmm, foldl_jadd_nums, zero_add]
    have hlen2 : ((t.points.filterMap numSpeed).length : ℚ) ≠ 0 := by
      exact_mod_cast Nat.pos_iff_ne_zero.mp hlen
    simp [jdiv, cNum, hlen2]
  · intro hempty D hD hdur
    simp only [hsp, hempty, List.map_nil, List.length_nil]
    rw [if_neg (by omega)]
    rw [hD]
    have h1000 : (1000 : ℚ) ≠ 0 := by norm_num
    have h3600 : t.duration / 3600 ≠ 0 := by positivity
    simp [jdiv, cNum, h1000, h3600]

/-- A concrete two-point track with numeric speeds 10 and 20 m/s. -/
def statsSampleTrack : Track :=
  { id := "st", name := "S", startTime := 0, endTime := none,
    points :=
      [{ latitude := .num 1, longitude := .num 1, accuracy := .num 1,
         altitude := .null, timestamp := 0, speed := .num 10, battery := .null },
       { latitude := .num 2, longitude := .num 2, accuracy := .num 1,
         altitude := .null, timestamp := 3600000, speed := .num 20, battery := .null }],
    distance := .num 7200, duration := 7200, active := false, speedData := none }

/-- Witness for C6: the concrete two-point track instantiates the
average-speed equations. -/
theorem claim6_witness :
    (statsSampleTrack.points.filterMap numSpeed ≠ [] →
      (calculateTrackStats (fun _ => "t") (some statsSampleTrack)).averageSpeed =
        JVal.num (((statsSampleTrack.points.filterMap numSpeed).map
            (fun q => q * 3.6)).sum /
          (statsSampleTrack.points.filterMap numSpeed).length)) ∧
      (statsSampleTrack.points.filterMap numSpeed = [] →
        ∀ D, statsSampleTrack.distance = JVal.num D →
        0 < statsSampleTrack.duration →
        (calculateTrackStats (fun _ => "t") (some statsSampleTrack)).averageSpeed =
          JVal.num ((D / 1000) / (statsSampleTrack.duration / 3600))) :=
  claim6_average_speed (fun _ => "t") statsSampleTrack (by decide) (by decide)

/-! ## C4 — the trajectory cleaner backfills speed in km/h, not m/s -/

theorem cleanStep_fields (dist : ℚ → ℚ → ℚ → ℚ → ℚ) (prev p : TrackPoint) :
    (cleanStep dist prev p).latitude = p.latitude ∧
      (cleanStep dist prev p).longitude = p.longitude ∧
      (cleanStep dist prev p).timestamp = p.timestamp := by
  simp only [cleanStep]
  split_ifs <;> exact ⟨rfl, rfl, rfl⟩

theorem cleanStep_congr (dist : ℚ → ℚ → ℚ → ℚ → ℚ) (a b p : TrackPoint)
    (hlat : a.latitude = b.latitude) (hlon : a.longitude = b.longitude)
    (hts : a.timestamp = b.timestamp) :
    cleanStep dist a p = cleanStep dist b p := by
  unfold cleanStep
  rw [hlat, hlon, hts]

theorem cleanBackfill_getElem (dist : ℚ → ℚ → ℚ → ℚ → ℚ) :
    ∀ (l : List TrackPoint) (prev : TrackPoint) (i : Nat),
      (cleanBackfill dist prev l)[i+1]? =
        (match l[i]?, l[i+1]? with
          | some a, some b => some (cleanStep dist a b)
          | _, _ => none) := by
  intro l
  induction l with
  | nil => intro prev i; rfl
  | cons p rest ih =>
    intro prev i
    cases i with
    | zero =>
      cases rest with
      | nil => simp [cleanBackfill]
      | cons r0 rrest =>
        simp only [cleanBackfill, List.getElem?_cons_succ, List.getElem?_cons_zero]
        obtain ⟨h1, h2, h3⟩ := cleanStep_fields dist prev p
        rw [cleanStep_congr dist (cleanStep dist prev p) p r0 h1 h2 h3]
    | succ j =>
      simp only [cleanBackfill, List.getElem?_cons_succ]
      rw [ih (cleanStep dist prev p) j]

/-- C4 as amended: the trajectory cleaner recomputes the speed of every
point from the second onward whose speed is falsy
(null/undefined/zero/NaN) from its cleaned (post-sort, post-filter)
predecessor, but in kilometers per hour — `distance / 1000 /
elapsedHours`, which is 3.6 times the meters-per-second value the claim
states — and sets the speed to 0 when no time (or negative time)
elapsed. Conjunct 1 places `cleanStep` at every position of the cleaned
list; conjuncts 2 and 3 evaluate `cleanStep`'s speed. -/
theorem claim4_cleaner_speed_kmh (dist : ℚ → ℚ → ℚ → ℚ → ℚ) (t t2 : Track)
    (h : prepareTrackData dist (some t) = some t2)
    (hne : t.points.length ≠ 0) :
    (∀ i : Nat, t2.points[i+1]? =
      (match (sortedFilteredPoints t)[i]?, (sortedFilteredPoints t)[i+1]? with
        | some a, some b => some (cleanStep dist a b)
        | _, _ => none)) ∧
      (∀ prev cur : TrackPoint, ∀ dq : ℚ,
        jcalculateDistance dist prev.latitude prev.longitude cur.latitude cur.longitude
          = JVal.num dq →
        jsFalsy cur.speed = true → 0 < cur.timestamp - prev.timestamp →
        (cleanStep dist prev cur).speed =
          JVal.num (3.6 * (dq / ((cur.timestamp - prev.timestamp) / 1000)))) ∧
      (∀ prev cur : TrackPoint, jsFalsy cur.speed = true →
        cur.timestamp - prev.timestamp ≤ 0 →
        (cleanStep dist prev cur).speed = JVal.num 0) := by
  refine ⟨?_, ?_, ?_⟩
  · intro i
    have hpts : t2.points =
        (match sortedFilteredPoints t with
          | [] => []
          | p0 :: rest => p0 :: cleanBackfill dist p0 rest) := by
      simp only [prepareTrackData] at h
      rw [if_neg hne] at h
      rw [← Option.some.inj h]
    rw [hpts]
    cases hsf : sortedFilteredPoints t with
    | nil => rfl
    | cons p0 rest =>
      cases i with
      | zero =>
        cases rest with
        | nil => simp [cleanBackfill]
        | cons r0 rrest =>
          simp only [cleanBackfill, List.getElem?_cons_succ, List.getElem?_cons_zero]
      | succ j =>
        simp only [List.getElem?_cons_succ]
        rw [cleanBackfill_getElem dist rest p0 j]
  · intro prev cur dq hd hfalsy helapsed
    have htdh : 0 < (cur.timestamp - prev.timestamp) / (1000 * 60 * 60) := by
      positivity
    unfold cleanStep
    rw [if_pos hfalsy]
    simp only [hd]
    rw [if_pos htdh]
    have h1000 : (1000 : ℚ) ≠ 0 := by norm_num
    have htdh2 : (cur.timestamp - prev.timestamp) / (1000 * 60 * 60) ≠ 0 := ne_of_gt htdh
    simp only [jdiv, cNum, if_neg h1000, if_neg htdh2]
    have hms : cur.timestamp - prev.timestamp ≠ 0 := ne_of_gt helapsed
    congr 1
    field_simp
    ring
  · intro prev cur hfalsy helapsed
    have htdh : ¬(0 < (cur.timestamp - prev.timestamp) / (1000 * 60 * 60)) := by
      intro hpos
      have : 0 < cur.timestamp - prev.timestamp := by
        by_contra hc
        push_neg at hc
        have : (cur.timestamp - prev.timestamp) / (1000 * 60 * 60) ≤ 0 := by
          apply div_nonpos_of_nonpos_of_nonneg hc
          norm_num
        linarith
      linarith
    unfold cleanStep
    rw [if_pos hfalsy, if_neg htdh]

/-- First point of the cleaner counterexample: speed `null`. -/
def cleanPt1 : TrackPoint :=
  { latitude := .num 1, longitude := .num 1, accuracy := .num 1, altitude := .null,
    timestamp := 0, speed := .null, battery := .null }

/-- Second point of the cleaner counterexample: speed `null`, one hour
later. -/
def cleanPt2 : TrackPoint :=
  { latitude := .num 2, longitude := .num 2, accuracy := .num 1, altitude := .null,
    timestamp := 3600000, speed := .null, battery := .null }

/-- A two-point track with missing speeds, 1 h apart, fed to the
cleaner with a constant 1000 m distance function. -/
def cleanSampleTrack : Track :=
  { id := "c", name := "C", startTime := 0, endTime := none,
    points := [cleanPt1, cleanPt2],
    distance := .num 0, duration := 3600, active := false, speedData := none }

/-- Counterexample to C4: over 1000 m in 3600 s the cleaner writes speed
`1` (km/h), not the meters-per-second value `1000 / 3600` the claim
states. -/
theorem claim4_counterexample :
    (prepareTrackData (constDist 1000) (some cleanSampleTrack)).map
        (fun t => t.points.map TrackPoint.speed) = some [JVal.null, JVal.num 1] ∧
      JVal.num 1 ≠ JVal.num (1000 / 3600) := by
  constructor
  · have hsort : (cleanSampleTrack.points.map jsonClonePoint).mergeSort
        (fun a b => a.timestamp ≤ b.timestamp) =
          cleanSampleTrack.points.map jsonClonePoint :=
      List.mergeSort_of_sorted (by decide)
    simp only [prepareTrackData, sortedFilteredPoints]
    rw [if_neg (by decide), hsort]
    norm_num [cleanSampleTrack, cleanPt1, cleanPt2, jsonCloneTrack, jsonClonePoint,
      jsonRound, validCoordPoint, isUndef, jsIsNaN, cNum, cleanBackfill, cleanStep,
      jsFalsy, jcalculateDistance, toFiniteNum, constDist, jdiv, List.filter]
  · intro hcon
    have := JVal.num.inj hcon
    norm_num at this

/-- The track the cleaner produces on `cleanSampleTrack`. -/
def cleanSampleResult : Track :=
  { cleanSampleTrack with points := [cleanPt1, { cleanPt2 with speed := .num 1 }] }

/-- Witness for the amended C4: the concrete cleaner run instantiates
the backfill equations. -/
theorem claim4_witness :
    (∀ i : Nat, cleanSampleResult.points[i+1]? =
      (match (sortedFilteredPoints cleanSampleTrack)[i]?,
          (sortedFilteredPoints cleanSampleTrack)[i+1]? with
        | some a, some b => some (cleanStep (constDist 1000) a b)
        | _, _ => none)) ∧
      (∀ prev cur : TrackPoint, ∀ dq : ℚ,
        jcalculateDistance (constDist 1000) prev.latitude prev.longitude
            cur.latitude cur.longitude = JVal.num dq →
        jsFalsy cur.speed = true → 0 < cur.timestamp - prev.timestamp →
        (cleanStep (constDist 1000) prev cur).speed =
          JVal.num (3.6 * (dq / ((cur.timestamp - prev.timestamp) / 1000)))) ∧
      (∀ prev cur : TrackPoint, jsFalsy cur.speed = true →
        cur.timestamp - prev.timestamp ≤ 0 →
        (cleanStep (constDist 1000) prev cur).speed = JVal.num 0) := by
  have h : prepareTrackData (constDist 1000) (some cleanSampleTrack) =
      some cleanSampleResult := by
    have hsort : (cleanSampleTrack.points.map jsonClonePoint).mergeSort
        (fun a b => a.timestamp ≤ b.timestamp) =
          cleanSampleTrack.points.map jsonClonePoint :=
      List.mergeSort_of_sorted (by decide)
    simp only [prepareTrackData, sortedFilteredPoints]
    rw [if_neg (by decide), hsort]
    norm_num [cleanSampleTrack, cleanSampleResult, cleanPt1, cleanPt2, jsonCloneTrack,
      jsonClonePoint, jsonRound, validCoordPoint, isUndef, jsIsNaN, cNum,
      cleanBackfill, cleanStep, jsFalsy, jcalculateDistance, toFiniteNum, constDist,
      jdiv, List.filter]
  exact claim4_cleaner_speed_kmh (constDist 1000) cleanSampleTrack cleanSampleResult
    h (by decide)

/-! ## C9 — GPX export: one `<trkpt>` per point, escaped name -/

theorem countTokL_cons_not_lt (c : Char) (cs : List Char) (h : c ≠ ('<' : Char)) :
    countTokL (c :: cs) = countTokL cs := by
  have hbeq : (('<' : Char) == c) = false := beq_eq_false_iff_ne.mpr (Ne.symm h)
  simp [countTokL, trkptTok, List.isPrefixOf, hbeq]

theorem countTokL_append_no_lt (a b : List Char) (h : ('<' : Char) ∉ a) :
    countTokL (a ++ b) = countTokL b := by
  induction a with
  | nil => rfl
  | cons c cs ih =>
    rw [List.cons_append,
      countTokL_cons_not_lt c _ (fun hc => h (hc ▸ List.mem_cons_self c cs))]
    exact ih fun hm => h (List.mem_cons_of_mem _ hm)

theorem isPrefixOf_append_right (t l b : List Char) (h : t.isPrefixOf l = true) :
    t.isPrefixOf (l ++ b) = true := by
  rw [List.isPrefixOf_iff_prefix] at h ⊢
  exact h.trans (List.prefix_append l b)

theorem isPrefixOf_append_false (t l b : List Char)
    (h1 : t.isPrefixOf l = false) (h2 : l.isPrefixOf t = false) :
    t.isPrefixOf (l ++ b) = false := by
  by_contra hc
  rw [Bool.not_eq_false, List.isPrefixOf_iff_prefix] at hc
  rcases List.prefix_or_prefix_of_prefix hc (List.prefix_append l b) with hp | hp
  · rw [← List.isPrefixOf_iff_prefix] at hp
    rw [hp] at h1
    exact absurd h1 (by simp)
  · rw [← List.isPrefixOf_iff_prefix] at hp
    rw [hp] at h2
    exact absurd h2 (by simp)

/-- Appending `b` after a piece `a` in which every suffix either fails
to be a prefix of `<trkpt` or already contains the full token does not
create or destroy token occurrences across the boundary. -/
theorem countTokL_append_safe (a b : List Char)
    (h : ∀ i, i < a.length →
      (a.drop i).isPrefixOf trkptTok = false ∨ trkptTok.isPrefixOf (a.drop i) = true) :
    countTokL (a ++ b) = countTokL a + countTokL b := by
  induction a with
  | nil => simp [countTokL]
  | cons c cs ih =>
    have h0 := h 0 (by simp)
    rw [List.drop_zero] at h0
    have hrest : ∀ i, i < cs.length →
        (cs.drop i).isPrefixOf trkptTok = false ∨
          trkptTok.isPrefixOf (cs.drop i) = true := by
      intro i hi
      have := h (i + 1) (by simp; omega)
      simpa using this
    simp only [List.cons_append, countTokL, List.append_eq]
    rw [ih hrest]
    have hsame : trkptTok.isPrefixOf (c :: (cs ++ b)) = trkptTok.isPrefixOf (c :: cs) := by
      cases hp : trkptTok.isPrefixOf (c :: cs) with
      | true =>
        have := isPrefixOf_append_right trkptTok (c :: cs) b hp
        rw [List.cons_append] at this
        exact this
      | false =>
        cases h0 with
        | inl hpre =>
          have := isPrefixOf_append_false trkptTok (c :: cs) b hp hpre
          rw [List.cons_append] at this
          exact this
        | inr htrue => rw [htrue] at hp; cases hp
    simp only [hsame]
    omega

/-- `countTokL` across a closed literal piece. -/
theorem countTokL_lit_append (L : String) (r : List Char)
    (hsafe : ∀ i, i < L.data.length →
      (L.data.drop i).isPrefixOf trkptTok = false ∨
        trkptTok.isPrefixOf (L.data.drop i) = true) :
    countTokL (L.data ++ r) = countTokL L.data + countTokL r :=
  countTokL_append_safe _ _ hsafe

theorem foldl_append_data (l : List String) (init : String) :
    (l.foldl (fun acc s => acc ++ s) init).data =
      init.data ++ (l.map String.data).flatten := by
  induction l generalizing init with
  | nil => simp
  | cons s rest ih =>
    simp only [List.foldl_cons, List.map_cons, List.flatten_cons]
    rw [ih, String.data_append, List.append_assoc]

theorem stringJoin_data (l : List String) :
    (String.join l).data = (l.map String.data).flatten := by
  show (l.foldl (fun acc s => acc ++ s) "").data = _
  rw [foldl_append_data]
  rfl

theorem stringJoin_cons_data (s : String) (l : List String) :
    (String.join (s :: l)).data = s.data ++ (String.join l).data := by
  rw [stringJoin_data, stringJoin_data, List.map_cons, List.flatten_cons]

theorem escapeChar_no_lt (c : Char) : ('<' : Char) ∉ (escapeChar c).data := by
  unfold escapeChar
  split_ifs with h1 h2 h3 h4 h5
  · decide
  · decide
  · decide
  · decide
  · decide
  · intro hm
    simp [String.singleton] at hm
    exact h1 hm.symm

theorem escapeXml_no_lt (s : String) : ('<' : Char) ∉ (escapeXml s).data := by
  unfold escapeXml
  rw [stringJoin_data]
  intro hm
  rw [List.mem_flatten] at hm
  obtain ⟨l, hl, hcl⟩ := hm
  rw [List.map_map, List.mem_map] at hl
  obtain ⟨c, _, rfl⟩ := hl
  exact escapeChar_no_lt c hcl

theorem stringFoldl_join (l : List String) (init : String) :
    l.foldl (fun acc s => acc ++ s) init = init ++ String.join l := by
  induction l generalizing init with
  | nil =>
    show init = init ++ String.join []
    rw [show String.join [] = "" from rfl, String.append_empty]
  | cons s rest ih =>
    show rest.foldl (fun acc s => acc ++ s) (init ++ s) = init ++ String.join (s :: rest)
    rw [ih]
    have hjoin : String.join (s :: rest) = s ++ String.join rest := by
      show rest.foldl (fun acc s => acc ++ s) ("" ++ s) = s ++ String.join rest
      rw [String.empty_append, ih]
    rw [hjoin, String.append_assoc]

theorem countTokL_chunk (renderNum : ℚ → String) (p : TrackPoint) (R : List Char)
    (hlat : ('<' : Char) ∉ (renderJVal renderNum p.latitude).data)
    (hlon : ('<' : Char) ∉ (renderJVal renderNum p.longitude).data)
    (halt : ('<' : Char) ∉ (renderJVal renderNum p.altitude).data)
    (hts : ('<' : Char) ∉ (renderNum p.timestamp).data) :
    countTokL ((trkptChunk renderNum p).data ++ R) = 1 + countTokL R := by
  unfold trkptChunk
  by_cases h0 : p.altitude ≠ JVal.null
  · rw [if_pos h0]
    simp only [String.data_append, List.append_assoc]
    rw [countTokL_lit_append _ _ (by decide)]
    rw [countTokL_append_no_lt _ _ hlat]
    rw [countTokL_lit_append _ _ (by decide)]
    rw [countTokL_append_no_lt _ _ hlon]
    rw [countTokL_lit_append _ _ (by decide)]
    rw [countTokL_lit_append _ _ (by decide)]
    rw [countTokL_append_no_lt _ _ halt]
    rw [countTokL_lit_append _ _ (by decide)]
    rw [countTokL_lit_append _ _ (by decide)]
    rw [countTokL_append_no_lt _ _ hts]
    rw [countTokL_lit_append _ _ (by decide)]
    norm_num [show countTokL ("\n      <trkpt lat=\"").data = 1 from by decide,
      show countTokL ("\" lon=\"").data = 0 from by decide,
      show countTokL ("\">\n        ").data = 0 from by decide,
      show countTokL ("<ele>").data = 0 from by decide,
      show countTokL ("</ele>").data = 0 from by decide,
      show countTokL ("\n        <time>").data = 0 from by decide,
      show countTokL ("</time>\n      </trkpt>").data = 0 from by decide]
  · rw [if_neg h0]
    simp only [String.data_append, List.append_assoc,
      show ("" : String).data = [] from rfl, List.nil_append]
    rw [countTokL_lit_append _ _ (by decide)]
    rw [countTokL_append_no_lt _ _ hlat]
    rw [countTokL_lit_append _ _ (by decide)]
    rw [countTokL_append_no_lt _ _ hlon]
    rw [countTokL_lit_append _ _ (by decide)]
    rw [countTokL_lit_append _ _ (by decide)]
    rw [countTokL_append_no_lt _ _ hts]
    rw [countTokL_lit_append _ _ (by decide)]
    norm_num [show countTokL ("\n      <trkpt lat=\"").data = 1 from by decide,
      show countTokL ("\" lon=\"").data = 0 from by decide,
      show countTokL ("\">\n        ").data = 0 from by decide,
      show countTokL ("\n        <time>").data = 0 from by decide,
      show countTokL ("</time>\n      </trkpt>").data = 0 from by decide]

/-- The rendered coordinate, altitude and timestamp strings of a point
contain no `<` character. -/
def cleanRenders (renderNum : ℚ → String) (p : TrackPoint) : Prop :=
  ('<' : Char) ∉ (renderJVal renderNum p.latitude).data ∧
    ('<' : Char) ∉ (renderJVal renderNum p.longitude).data ∧
    ('<' : Char) ∉ (renderJVal renderNum p.altitude).data ∧
    ('<' : Char) ∉ (renderNum p.timestamp).data

theorem countTokL_chunks (renderNum : ℚ → String) (ps : List TrackPoint)
    (R : List Char) (h : ∀ p ∈ ps, cleanRenders renderNum p) :
    countTokL ((String.join (ps.map (trkptChunk renderNum))).data ++ R) =
      ps.length + countTokL R := by
  induction ps with
  | nil =>
    show countTokL ((String.join []).data ++ R) = 0 + countTokL R
    rw [show (String.join ([] : List String)).data = [] from rfl, List.nil_append,
      Nat.zero_add]
  | cons p rest ih =>
    rw [List.map_cons, stringJoin_cons_data, List.append_assoc]
    obtain ⟨h1, h2, h3, h4⟩ := h p (List.mem_cons_self _ _)
    rw [countTokL_chunk renderNum p _ h1 h2 h3 h4]
    rw [ih fun q hq => h q (List.mem_cons_of_mem _ hq)]
    simp only [List.length_cons]
    omega

set_option maxRecDepth 40000 in
theorem countTokL_gpxHeader (renderNum : ℚ → String) (track : Track)
    (r : List Char) (hst : ('<' : Char) ∉ (renderNum track.startTime).data) :
    countTokL ((gpxHeader renderNum track).data ++ r) = countTokL r := by
  unfold gpxHeader
  simp only [String.data_append, List.append_assoc]
  rw [countTokL_lit_append _ _ (by decide)]
  rw [countTokL_append_no_lt _ _ (escapeXml_no_lt track.name)]
  rw [countTokL_lit_append _ _ (by decide)]
  rw [countTokL_append_no_lt _ _ hst]
  rw [countTokL_lit_append _ _ (by decide)]
  rw [countTokL_append_no_lt _ _ (escapeXml_no_lt track.name)]
  rw [countTokL_lit_append _ _ (by decide)]
  norm_num [show countTokL ("<?xml version=\"1.0\" encoding=\"UTF-8\"?>\n<gpx version=\"1.1\" creator=\"GeoLocator IoT App\" xmlns=\"http://www.topografix.com/GPX/1/1\">\n  <metadata>\n    <name>").data = 0 from by decide,
    show countTokL ("</name>\n    <time>").data = 0 from by decide,
    show countTokL ("</time>\n  </metadata>\n  <trk>\n    <name>").data = 0 from by decide,
    show countTokL ("</name>\n    <trkseg>").data = 0 from by decide]

/-- C9: for every stored track whose rendered numeric fields contain no
`<` character (true of JavaScript number formatting), the exported GPX
document contains exactly one `<trkpt` opening per stored point; the
document is the header, the `<trkpt>` fragments in point order, and the
footer; and `escapeXml` escapes the name `Trip & <Test>` to
`Trip &amp; &lt;Test&gt;`. -/
theorem claim9_gpx_export (renderNum : ℚ → String) (tracks : List Track)
    (trackId : String) (track : Track) (gpx : String)
    (hfind : getTrackById tracks trackId = some track)
    (hexp : exportTrackToGPX renderNum tracks trackId = some gpx)
    (hlt : ∀ p ∈ track.points, cleanRenders renderNum p)
    (hst : ('<' : Char) ∉ (renderNum track.startTime).data) :
    countTrkpt gpx = track.points.length ∧
      gpx = gpxHeader renderNum track ++
        String.join (track.points.map (trkptChunk renderNum)) ++ gpxFooter ∧
      escapeXml "Trip & <Test>" = "Trip &amp; &lt;Test&gt;" := by
  have hgpx : gpx = (track.points.foldl
      (fun g point => g ++ trkptChunk renderNum point)
      (gpxHeader renderNum track)) ++ gpxFooter := by
    unfold exportTrackToGPX at hexp
    rw [hfind] at hexp
    exact (Option.some.inj hexp).symm
  have hfold : track.points.foldl (fun g point => g ++ trkptChunk renderNum point)
      (gpxHeader renderNum track) =
        gpxHeader renderNum track ++
          String.join (track.points.map (trkptChunk renderNum)) := by
    rw [← List.foldl_map (trkptChunk renderNum) (fun acc s => acc ++ s)]
    exact stringFoldl_join _ _
  have hshape : gpx = gpxHeader renderNum track ++
      String.join (track.points.map (trkptChunk renderNum)) ++ gpxFooter := by
    rw [hgpx, hfold]
  refine ⟨?_, hshape, by decide⟩
  rw [hshape]
  unfold countTrkpt
  rw [String.data_append, String.data_append, List.append_assoc]
  rw [countTokL_gpxHeader renderNum track _ hst]
  rw [countTokL_chunks renderNum track.points _ hlt]
  norm_num [show countTokL (gpxFooter.data) = 0 from by decide]

/-- A stored 3-point track whose name carries the XML special
characters, for the concrete export run (one point with altitude). -/
def gpxSampleTrack : Track :=
  { id := "g", name := "Trip & <Test>", startTime := 100, endTime := none,
    points :=
      [{ latitude := .num 1, longitude := .num 2, accuracy := .num 1,
         altitude := .null, timestamp := 10, speed := .num 0, battery := .null },
       { latitude := .num 3, longitude := .num 4, accuracy := .num 1,
         altitude := .num 50, timestamp := 20, speed := .num 1, battery := .null },
       { latitude := .num 5, longitude := .num 6, accuracy := .num 1,
         altitude := .null, timestamp := 30, speed := .num 2, battery := .null }],
    distance := .num 10, duration := 20, active := false, speedData := none }

/-- The GPX document the export produces on `gpxSampleTrack` with the
constant renderer. -/
def gpxSampleDoc : String :=
  "<?xml version=\"1.0\" encoding=\"UTF-8\"?>\n<gpx version=\"1.1\" creator=\"GeoLocator IoT App\" xmlns=\"http://www.topografix.com/GPX/1/1\">\n  <metadata>\n    <name>Trip &amp; &lt;Test&gt;</name>\n    <time>42</time>\n  </metadata>\n  <trk>\n    <name>Trip &amp; &lt;Test&gt;</name>\n    <trkseg>\n      <trkpt lat=\"42\" lon=\"42\">\n        \n        <time>42</time>\n      </trkpt>\n      <trkpt lat=\"42\" lon=\"42\">\n        <ele>42</ele>\n        <time>42</time>\n      </trkpt>\n      <trkpt lat=\"42\" lon=\"42\">\n        \n        <time>42</time>\n      </trkpt>\n    </trkseg>\n  </trk>\n</gpx>"

set_option maxRecDepth 40000 in
/-- Witness for C9: the concrete 3-point export yields exactly 3
`<trkpt` openings and the header–fragments–footer shape, and the name is
escaped. -/
theorem claim9_witness :
    countTrkpt gpxSampleDoc = gpxSampleTrack.points.length ∧
      gpxSampleDoc = gpxHeader (fun _ => "42") gpxSampleTrack ++
        String.join (gpxSampleTrack.points.map (trkptChunk (fun _ => "42"))) ++
        gpxFooter ∧
      escapeXml "Trip & <Test>" = "Trip &amp; &lt;Test&gt;" :=
  claim9_gpx_export (fun _ => "42") [gpxSampleTrack] "g" gpxSampleTrack gpxSampleDoc
    (by decide) (by decide)
    (by intro p hp; fin_cases hp <;> refine ⟨by decide, by decide, by decide, by decide⟩)
    (by decide)

end IOTTrack
